import Mathlib

/-!
Verification of `send-reminders.js` (wife-date-reminder).

The script is embedded shallowly:

* JS `Date` values at local midnight are modelled as civil day numbers
  (`jsDateDay`): `new Date(y, m - 1, d)` for a 1-based month `m` in `1..12`
  becomes an exact day count from year 0.  `Math.round((d - t)/86400000)`
  on two local midnights is the exact difference of their day numbers, so
  the model drops the rounding.  `todayMidnight()` becomes an explicit
  `Today` parameter (year, month, day of the invocation day).
* JS strings use Lean `String`; `split('-')`, `Number`, `toLowerCase` are
  modelled on the inputs the program's data can carry (`jsSplit`,
  `jsNumber`, `jsToLower`).  Malformed date strings are left unspecified
  by the spec (its section 7) and are outside the modelled domain.
* Fields that JS tests for truthiness are `Option String`, with
  `jsTruthy` (absent or empty string = falsy).
* The fallible ownership check (`subscriberEmail.toLowerCase()` throws a
  TypeError when `subscriberEmail` is null) is modelled with `Except Unit`.
* Firestore reads and the EmailJS endpoint are external collaborators:
  the orchestrator `main` is modelled as a function of the fetched data
  plus an outcome oracle for each attempted send, producing the ordered
  event trace (send attempts, pacing sleeps, skips), the three counters
  and the process exit code.
-/

/-! ## JS string primitives -/

/-- Digit-string value: `digitsVal cs 0` is the number a decimal digit
string denotes (accumulator form). -/
def digitsVal : List Char → Nat → Nat
  | [], acc => acc
  | c :: cs, acc => digitsVal cs (acc * 10 + (c.toNat - 48))

/-- JS `Number(s)` on the strings the program's date fields carry: decimal
digit strings (`Number("12") = 12`), and the empty string (`Number("") = 0`).
`NaN` on other junk is outside the modelled domain (spec section 7 leaves
malformed date strings unspecified). -/
def jsNumber (s : String) : Int :=
  Int.ofNat (digitsVal s.data 0)

/-- JS `s.split(c)` for a one-character separator: auxiliary walk keeping
the current field in reverse. -/
def splitOnCharAux (c : Char) : List Char → List Char → List String
  | [], acc => [String.mk acc.reverse]
  | x :: xs, acc =>
    if x = c then String.mk acc.reverse :: splitOnCharAux c xs []
    else splitOnCharAux c xs (x :: acc)

/-- JS `s.split('-')` (a one-character separator splits into the fields
between occurrences; `"".split('-') = [""]`, `"a-".split('-') = ["a",""]`). -/
def jsSplit (s : String) (c : Char) : List String :=
  splitOnCharAux c s.data []

/-- JS `s.toLowerCase()` on the ASCII strings (emails) the program
compares. -/
def jsToLower (s : String) : String :=
  String.mk (s.data.map Char.toLower)

/-- JS truthiness of an optional string field: `undefined`, `null` and
`""` are falsy, every other string truthy. -/
def jsTruthy : Option String → Bool
  | none => false
  | some s => !(s == "")

/-! ## Calendar model (proleptic Gregorian, as JS `Date` local time) -/

/-- Gregorian leap year test (what JS `new Date(y, 1, 29)` rolls on). -/
def isLeap (y : Nat) : Bool :=
  (y % 4 == 0 && y % 100 != 0) || y % 400 == 0

/-- Days in year `y`. -/
def daysInYear (y : Nat) : Nat :=
  if isLeap y then 366 else 365

/-- Days in all years before year `y` (day number of Jan 1 of year `y`). -/
def daysBeforeYear : Nat → Nat
  | 0 => 0
  | y + 1 => daysBeforeYear y + daysInYear y

/-- Length of 1-based month `m` of a (non-)leap year. -/
def monthDays (leap : Bool) (m : Nat) : Nat :=
  match m with
  | 1 => 31 | 2 => if leap then 29 else 28 | 3 => 31 | 4 => 30
  | 5 => 31 | 6 => 30 | 7 => 31 | 8 => 31
  | 9 => 30 | 10 => 31 | 11 => 30 | 12 => 31
  | _ => 0

/-- Days of the year before 1-based month `m` begins. -/
def daysBeforeMonth (leap : Bool) (m : Nat) : Nat :=
  (match m with
   | 1 => 0 | 2 => 31 | 3 => 59 | 4 => 90 | 5 => 120 | 6 => 151
   | 7 => 181 | 8 => 212 | 9 => 243 | 10 => 273 | 11 => 304 | 12 => 334
   | _ => 0)
  + (if leap && 3 ≤ m && m ≤ 12 then 1 else 0)

/-- Day number of JS `new Date(y, month - 1, day)` at local midnight, for a
1-based `month` in `1..12` (any integer `day`: JS adds `day - 1` days to the
first of the month, which the formula reproduces).  Month overflow outside
`1..12` (JS year rollover) is outside the modelled domain: every date the
program builds from in-range data has `month` in `1..12`. -/
def jsDateDay (y : Nat) (month day : Int) : Int :=
  (daysBeforeYear y : Int) + (daysBeforeMonth (isLeap y) month.toNat : Int) + (day - 1)

/-- The invocation day: `todayMidnight()` as the local calendar date it
falls on. -/
structure Today where
  year : Nat
  month : Nat
  day : Nat
deriving DecidableEq, Repr

/-- A real calendar date: 1-based month in range, day within the month. -/
def Today.isValid (t : Today) : Prop :=
  1 ≤ t.month ∧ t.month ≤ 12 ∧ 1 ≤ t.day ∧ t.day ≤ monthDays (isLeap t.year) t.month

instance (t : Today) : Decidable t.isValid := by
  unfold Today.isValid; infer_instance

/-- Day number of today's local midnight (the script's `t`). -/
def Today.epochDay (t : Today) : Int :=
  jsDateDay t.year t.month t.day

/-! ## Date Engine (`daysUntilFixed`, `daysUntil`) -/

/-- `daysUntilFixed(month, day)` from the source: days from today's local
midnight to the next occurrence of the 1-based month/day, rolling to next
year when this year's occurrence already passed. -/
def daysUntilFixed (today : Today) (month day : Int) : Int :=
  let t := today.epochDay
  let d := jsDateDay today.year month day
  if d < t then jsDateDay (today.year + 1) month day - t else d - t

/-- The source's `dateStr.split('-').map(Number)`. -/
def parseParts (dateStr : String) : List Int :=
  (jsSplit dateStr '-').map jsNumber

/-- `daysUntil(dateStr)` from the source: handles both a 2-field `MM-DD`
and a 3-field `YYYY-MM-DD` string, reading month and day from fields 1 and
2 when three fields are present, else from fields 0 and 1, then the same
roll-to-next-year rule as `daysUntilFixed`.  (JS reads a missing field as
`undefined`, giving `NaN` dates; such under-length inputs are outside the
modelled domain, spec section 7.) -/
def daysUntil (today : Today) (dateStr : String) : Int :=
  let parts := parseParts dateStr
  let m := if parts.length == 3 then parts.getD 1 0 else parts.getD 0 0
  let d := if parts.length == 3 then parts.getD 2 0 else parts.getD 1 0
  let t := today.epochDay
  let dt := jsDateDay today.year m d
  if dt < t then jsDateDay (today.year + 1) m d - t else dt - t

/-! ## Data model -/

/-- One entry of the fixed global holiday table. -/
structure GlobalDate where
  name : String
  month : Int
  day : Int
deriving DecidableEq, Repr

/-- The source's `GLOBAL_DATES` constant. -/
def GLOBAL_DATES : List GlobalDate :=
  [⟨"Valentine's Day", 2, 14⟩,
   ⟨"International Women's Day", 3, 8⟩,
   ⟨"Mother's Day", 5, 11⟩,
   ⟨"Vietnamese Women's Day", 10, 20⟩,
   ⟨"Christmas", 12, 25⟩]

/-- One `{label, date}` entry of a person's `custom` array. -/
structure CustomDate where
  label : String
  date : String
deriving DecidableEq, Repr

/-- A Person ("wife") record as read from the store.  `custom = none`
models a missing or non-array field (the source guards with
`Array.isArray`). -/
structure Person where
  name : String
  birthday : Option String
  anniversary : Option String
  custom : Option (List CustomDate)
  ownerEmail : Option String
deriving DecidableEq, Repr

/-- A computed alert `{label, days}`. -/
structure Alert where
  label : String
  days : Int
deriving DecidableEq, Repr

/-! ## The stable sort `alerts.sort((a, b) => a.days - b.days)`

JS `Array.prototype.sort` is specified to produce a stable,
comparator-sorted permutation; for the key comparator `a.days - b.days`
that output is unique, and insertion sort (insert before the first
element with a `≥` key) computes it. -/

/-- Insert `a` before the first element whose `days` is `≥ a.days`. -/
def insertByDays (a : Alert) : List Alert → List Alert
  | [] => [a]
  | b :: l => if a.days ≤ b.days then a :: b :: l else b :: insertByDays a l

/-- The stable ascending-by-`days` sort the source's `.sort` performs. -/
def sortByDays : List Alert → List Alert
  | [] => []
  | a :: l => insertByDays a (sortByDays l)

/-- Non-decreasing `days` between a pair of alerts. -/
def daysLE (a b : Alert) : Prop := a.days ≤ b.days

/-! ## Alert Builder -/

/-- The first loop of both builder variants: each global holiday whose
`daysUntilFixed` is within the threshold, in table order. -/
def rawGlobalAlerts (today : Today) (maxDays : Int) : List Alert :=
  GLOBAL_DATES.filterMap (fun g =>
    let d := daysUntilFixed today g.month g.day
    if d ≤ maxDays then some ⟨g.name, d⟩ else none)

/-- The `all` array gathered for one person: birthday, anniversary (when
truthy), then every custom entry, with the source's label formats. -/
def personDates (p : Person) : List (String × String) :=
  (match p.birthday with
   | some b => if b == "" then [] else [(p.name ++ "'s Birthday", b)]
   | none => [])
  ++ (match p.anniversary with
      | some a => if a == "" then [] else [(p.name ++ "'s Anniversary", a)]
      | none => [])
  ++ (match p.custom with
      | some cs => cs.map (fun c => (c.label ++ " (" ++ p.name ++ ")", c.date))
      | none => [])

/-- The inner `for (const dt of all)` loop: the person's dated events that
fall within the threshold. -/
def personRawAlerts (today : Today) (maxDays : Int) (p : Person) : List Alert :=
  (personDates p).filterMap (fun ld =>
    let d := daysUntil today ld.2
    if d ≤ maxDays then some ⟨ld.1, d⟩ else none)

/-- The `for (const p of people)` loop of the broadcast variant
`buildAlerts` (no ownership filter). -/
def personsAlerts (today : Today) (maxDays : Int) : List Person → List Alert
  | [] => []
  | p :: rest => personRawAlerts today maxDays p ++ personsAlerts today maxDays rest

/-- The `alerts` array of `buildAlerts` before its final `.sort`. -/
def rawAlerts (today : Today) (people : List Person) (maxDays : Int) : List Alert :=
  rawGlobalAlerts today maxDays ++ personsAlerts today maxDays people

/-- `buildAlerts(people, maxDays)`: the broadcast variant. -/
def buildAlerts (today : Today) (people : List Person) (maxDays : Int) : List Alert :=
  sortByDays (rawAlerts today people maxDays)

/-- The ownership guard
`p.ownerEmail && p.ownerEmail.toLowerCase() !== subscriberEmail.toLowerCase()`.
A falsy `ownerEmail` short-circuits to `false` (person visible); on a
truthy `ownerEmail`, a null/undefined `subscriberEmail` makes
`subscriberEmail.toLowerCase()` throw a TypeError (`Except.error ()`). -/
def personSkipped (p : Person) (subscriberEmail : Option String) : Except Unit Bool :=
  match p.ownerEmail with
  | none => Except.ok false
  | some o =>
    if o == "" then Except.ok false
    else
      match subscriberEmail with
      | none => Except.error ()
      | some s => Except.ok (!(jsToLower o == jsToLower s))

/-- The `for (const p of people)` loop of `buildAlertsForSubscriber`:
skipped persons contribute nothing; the first TypeError aborts. -/
def personLoop (today : Today) (subscriberEmail : Option String) (maxDays : Int) :
    List Person → Except Unit (List Alert)
  | [] => Except.ok []
  | p :: rest =>
    match personSkipped p subscriberEmail with
    | Except.error e => Except.error e
    | Except.ok skp =>
      match personLoop today subscriberEmail maxDays rest with
      | Except.error e => Except.error e
      | Except.ok tail =>
        Except.ok (if skp then tail else personRawAlerts today maxDays p ++ tail)

/-- The `alerts` array of `buildAlertsForSubscriber` before its final
`.sort`. -/
def rawAlertsForSubscriber (today : Today) (people : List Person)
    (subscriberEmail : Option String) (maxDays : Int) : Except Unit (List Alert) :=
  match personLoop today subscriberEmail maxDays people with
  | Except.error e => Except.error e
  | Except.ok pa => Except.ok (rawGlobalAlerts today maxDays ++ pa)

/-- `buildAlertsForSubscriber(people, subscriberEmail, maxDays)`: the
ownership-scoped variant, with the null-`subscriberEmail` TypeError made
explicit. -/
def buildAlertsForSubscriber (today : Today) (people : List Person)
    (subscriberEmail : Option String) (maxDays : Int) : Except Unit (List Alert) :=
  match rawAlertsForSubscriber today people subscriberEmail maxDays with
  | Except.error e => Except.error e
  | Except.ok raw => Except.ok (sortByDays raw)

/-- The ownership guard when `subscriberEmail` is an actual string (every
call the orchestrator makes): total. -/
def personSkippedS (p : Person) (subscriberEmail : String) : Bool :=
  match p.ownerEmail with
  | none => false
  | some o =>
    if o == "" then false else !(jsToLower o == jsToLower subscriberEmail)

/-- The person loop of `buildAlertsForSubscriber` under a string
`subscriberEmail`. -/
def personLoopS (today : Today) (subscriberEmail : String) (maxDays : Int) :
    List Person → List Alert
  | [] => []
  | p :: rest =>
    if personSkippedS p subscriberEmail then personLoopS today subscriberEmail maxDays rest
    else personRawAlerts today maxDays p ++ personLoopS today subscriberEmail maxDays rest

/-- `buildAlertsForSubscriber` under a string `subscriberEmail`, as the
orchestrator invokes it (`sub.email` is a string, so no TypeError). -/
def buildAlertsForSubscriberS (today : Today) (people : List Person)
    (subscriberEmail : String) (maxDays : Int) : List Alert :=
  sortByDays (rawGlobalAlerts today maxDays ++ personLoopS today subscriberEmail maxDays people)

/-! ## Formatter -/

/-- `formatAlertText(alerts)` from the source: empty list gives the empty
string, otherwise newline-joined lines `"<urgency> -- <label>"` with the
source's urgency word. -/
def formatAlertText (alerts : List Alert) : String :=
  if alerts.length == 0 then ""
  else
    String.intercalate "\n" (alerts.map (fun a =>
      (if a.days == 0 then "TODAY"
       else if a.days ≤ 3 then "In " ++ toString a.days ++ " day(s)"
       else "In " ++ toString a.days ++ " days") ++ " -- " ++ a.label))

/-! ## Orchestrator model -/

/-- The `config/emailConfig` document's fields (each possibly missing or
empty, which the source treats alike via truthiness). -/
structure EmailConfig where
  serviceId : Option String
  templateId : Option String
  pubKey : Option String
  sender : Option String
deriving DecidableEq, Repr

/-- A subscriber record. -/
structure Subscriber where
  name : String
  email : String
deriving DecidableEq, Repr

/-- The source's completeness check
`cfg.serviceId && cfg.templateId && cfg.pubKey` (negated in the guard). -/
def cfgComplete (cfg : EmailConfig) : Bool :=
  jsTruthy cfg.serviceId && jsTruthy cfg.templateId && jsTruthy cfg.pubKey

/-- One run's inputs: the invocation day, the three fetched collections
(`cfgDoc = none` models a missing config document), and the outcome oracle
`sendFails i` telling whether the REST send attempted for the `i`-th
subscriber gets a non-2xx response (so `sendEmailViaREST` throws). -/
structure Env where
  today : Today
  cfgDoc : Option EmailConfig
  people : List Person
  subscribers : List Subscriber
  sendFails : Nat → Bool

/-- The observable steps of a run, in order: an attempted provider send
(with its outcome), the pacing sleep, or a skipped subscriber. -/
inductive Event where
  | sendAttempt (email : String) (ok : Bool)
  | sleep (ms : Nat)
  | skip (name : String)
deriving DecidableEq, Repr

/-- The per-subscriber send loop of `main`: for each subscriber compute
the scoped alerts; on empty, count a skip and continue; else attempt the
send — on success count it and sleep 1100 ms, on a thrown send error
count the failure (the `catch` skips the sleep).  Returns the event
trace and the final `(ok, skipped, fail)` counters. -/
def sendLoop (env : Env) : Nat → List Subscriber → List Event × Nat × Nat × Nat
  | _, [] => ([], 0, 0, 0)
  | i, sub :: rest =>
    let alerts := buildAlertsForSubscriberS env.today env.people sub.email 7
    let r := sendLoop env (i + 1) rest
    if alerts.length == 0 then
      (Event.skip sub.name :: r.1, r.2.1, r.2.2.1 + 1, r.2.2.2)
    else if env.sendFails i then
      (Event.sendAttempt sub.email false :: r.1, r.2.1, r.2.2.1, r.2.2.2 + 1)
    else
      (Event.sendAttempt sub.email true :: Event.sleep 1100 :: r.1,
       r.2.1 + 1, r.2.2.1, r.2.2.2)

/-- A finished run: its trace, counters and process exit code. -/
structure RunResult where
  events : List Event
  sent : Nat
  skipped : Nat
  failed : Nat
  exitCode : Nat
deriving DecidableEq, Repr

/-- `main()` of the per-subscriber script: early informational exits when
the config document is absent or incomplete or no subscriber exists
(exit 0, nothing sent), else the send loop; `process.exit(1)` exactly
when some send failed. -/
def mainRun (env : Env) : RunResult :=
  match env.cfgDoc with
  | none => ⟨[], 0, 0, 0, 0⟩
  | some cfg =>
    if !cfgComplete cfg then ⟨[], 0, 0, 0, 0⟩
    else if env.subscribers.length == 0 then ⟨[], 0, 0, 0, 0⟩
    else
      let r := sendLoop env 0 env.subscribers
      ⟨r.1, r.2.1, r.2.2.1, r.2.2.2, if r.2.2.2 > 0 then 1 else 0⟩

/-- The send attempt an event records, if any. -/
def attemptOf : Event → Option (String × Bool)
  | Event.sendAttempt e ok => some (e, ok)
  | _ => none

/-- Whether an event is an attempted provider send. -/
def isAttempt : Event → Bool
  | Event.sendAttempt _ _ => true
  | _ => false

/-- Whether an event is a failed provider send. -/
def isFailedAttempt : Event → Bool
  | Event.sendAttempt _ ok => !ok
  | _ => false

/-! ## Sorting lemmas -/

theorem mem_insertByDays (x a : Alert) :
    ∀ l : List Alert, x ∈ insertByDays a l ↔ x = a ∨ x ∈ l
  | [] => by simp [insertByDays]
  | b :: l => by
    by_cases h : a.days ≤ b.days
    · simp [insertByDays, h]
    · simp only [insertByDays, if_neg h, List.mem_cons, mem_insertByDays x a l]
      tauto

theorem sorted_insertByDays (a : Alert) :
    ∀ l : List Alert, l.Pairwise daysLE → (insertByDays a l).Pairwise daysLE
  | [], _ => by simp [insertByDays]
  | b :: l, h => by
    rcases List.pairwise_cons.1 h with ⟨hb, hl⟩
    by_cases hab : a.days ≤ b.days
    · simp only [insertByDays, if_pos hab]
      refine List.pairwise_cons.2 ⟨?_, h⟩
      intro x hx
      rcases List.mem_cons.1 hx with rfl | hx
      · exact hab
      · exact le_trans hab (hb x hx)
    · simp only [insertByDays, if_neg hab]
      refine List.pairwise_cons.2 ⟨?_, sorted_insertByDays a l hl⟩
      intro x hx
      rcases (mem_insertByDays x a l).1 hx with rfl | hx
      · unfold daysLE; omega
      · exact hb x hx

theorem sorted_sortByDays : ∀ l : List Alert, (sortByDays l).Pairwise daysLE
  | [] => by simp [sortByDays]
  | a :: l => sorted_insertByDays a _ (sorted_sortByDays l)

theorem filter_insertByDays (a : Alert) (k : Int) :
    ∀ l : List Alert,
      (insertByDays a l).filter (fun x => x.days == k)
        = if a.days == k then a :: l.filter (fun x => x.days == k)
          else l.filter (fun x => x.days == k)
  | [] => by by_cases ha : a.days == k <;> simp [insertByDays, List.filter, ha]
  | b :: l => by
    by_cases hab : a.days ≤ b.days
    · by_cases ha : a.days == k <;>
        simp [insertByDays, hab, List.filter_cons, ha]
    · have hrec := filter_insertByDays a k l
      simp only [insertByDays, if_neg hab, List.filter_cons]
      by_cases hb : b.days == k <;> by_cases ha : a.days == k
      · simp only [beq_iff_eq] at hb ha
        omega
      · simp [hb, ha, hrec]
      · simp [hb, ha, hrec]
      · simp [hb, ha, hrec]

theorem filter_sortByDays (k : Int) :
    ∀ l : List Alert,
      (sortByDays l).filter (fun x => x.days == k) = l.filter (fun x => x.days == k)
  | [] => rfl
  | a :: l => by
    simp only [sortByDays, filter_insertByDays, List.filter_cons]
    by_cases ha : a.days == k <;> simp [ha, filter_sortByDays k l]

/-! ## C3: the year field of a 3-field date string is irrelevant -/

/-- C3: for every invocation day, a 2-field `MM-DD` string and a 3-field
`YYYY-MM-DD` string whose parsed fields carry the same month and day give
the same `daysUntil` value, whatever the year field holds. -/
theorem daysUntil_year_irrelevant (today : Today) (s2 s3 : String) (y m d : Int)
    (h2 : parseParts s2 = [m, d]) (h3 : parseParts s3 = [y, m, d]) :
    daysUntil today s2 = daysUntil today s3 := by
  unfold daysUntil
  rw [h2, h3]
  simp [List.getD]

theorem daysUntil_year_irrelevant_witness :
    parseParts "12-25" = [12, 25] ∧ parseParts "1999-12-25" = [1999, 12, 25]
      ∧ daysUntil ⟨5, 12, 20⟩ "12-25" = daysUntil ⟨5, 12, 20⟩ "1999-12-25" :=
  ⟨by decide, by decide,
   daysUntil_year_irrelevant ⟨5, 12, 20⟩ "12-25" "1999-12-25" 1999 12 25
     (by decide) (by decide)⟩

/-! ## C5: the formatter renders as the spec describes -/

/-- One alert line rendered as the spec's words describe it: urgency
`TODAY` when `days = 0`, `In <days> day(s)` when `1 ≤ days ≤ 3`, else
`In <days> days`, followed by ` -- ` and the label. -/
def renderLineSpec (a : Alert) : String :=
  (if a.days = 0 then "TODAY"
   else if 1 ≤ a.days ∧ a.days ≤ 3 then "In " ++ toString a.days ++ " day(s)"
   else "In " ++ toString a.days ++ " days") ++ " -- " ++ a.label

theorem map_renderLine (l : List Alert) (h : ∀ a ∈ l, 0 ≤ a.days) :
    l.map (fun a =>
      (if a.days == 0 then "TODAY"
       else if a.days ≤ 3 then "In " ++ toString a.days ++ " day(s)"
       else "In " ++ toString a.days ++ " days") ++ " -- " ++ a.label)
      = l.map renderLineSpec := by
  induction l with
  | nil => rfl
  | cons a rest ih =>
    have ha : 0 ≤ a.days := h a (List.mem_cons_self a rest)
    have hrest := ih (fun x hx => h x (List.mem_cons_of_mem a hx))
    simp only [List.map_cons, hrest]
    congr 1
    by_cases h0 : a.days = 0
    · simp [renderLineSpec, h0]
    · by_cases h3 : a.days ≤ 3
      · have h1 : 1 ≤ a.days := by omega
        simp [renderLineSpec, h0, h3, h1]
      · simp [renderLineSpec, h0, h3]

/-- C5: `formatAlertText` maps the empty list to the empty string and any
list of (non-negative-`days`) alerts to the newline-joined spec lines with
no trailing newline. -/
theorem formatAlertText_spec :
    formatAlertText [] = ""
      ∧ ∀ l : List Alert, (∀ a ∈ l, 0 ≤ a.days) →
          formatAlertText l = String.intercalate "\n" (l.map renderLineSpec) := by
  refine ⟨rfl, ?_⟩
  intro l h
  match l with
  | [] => rfl
  | a :: rest =>
    unfold formatAlertText
    rw [map_renderLine (a :: rest) h]
    simp

theorem formatAlertText_spec_witness :
    formatAlertText [] = ""
      ∧ formatAlertText [⟨"Test", 0⟩, ⟨"X", 2⟩, ⟨"Y", 5⟩]
          = String.intercalate "\n"
              (([⟨"Test", 0⟩, ⟨"X", 2⟩, ⟨"Y", 5⟩] : List Alert).map renderLineSpec) :=
  ⟨formatAlertText_spec.1, formatAlertText_spec.2 _ (by decide)⟩

/-! ## C4: `daysUntilFixed` is non-negative and zero on today -/

theorem daysBeforeMonth_add_monthDays_le (leap : Bool) (m : Nat)
    (h1 : 1 ≤ m) (h2 : m ≤ 12) :
    daysBeforeMonth leap m + monthDays leap m ≤ (if leap then 366 else 365) := by
  interval_cases m <;> cases leap <;> decide

theorem epochDay_lt_nextYear (t : Today) (hv : t.isValid) :
    t.epochDay < (daysBeforeYear (t.year + 1) : Int) := by
  obtain ⟨h1, h2, h3, h4⟩ := hv
  have hb := daysBeforeMonth_add_monthDays_le (isLeap t.year) t.month h1 h2
  have hy : daysBeforeYear (t.year + 1) = daysBeforeYear t.year + daysInYear t.year := rfl
  have hiy : daysInYear t.year = (if isLeap t.year then 366 else 365) := rfl
  unfold Today.epochDay jsDateDay
  rw [Int.toNat_natCast, hy, hiy]
  cases hL : isLeap t.year <;> simp [hL] at hb h4 ⊢ <;> omega

/-- C4: for a valid invocation day and any real 1-based month/day pair,
`daysUntilFixed` is non-negative, and it is zero when the pair is exactly
today's month and day. -/
theorem daysUntilFixed_spec (today : Today) (month day : Nat)
    (hv : today.isValid) (hm1 : 1 ≤ month) (hm2 : month ≤ 12) (hd : 1 ≤ day) :
    0 ≤ daysUntilFixed today month day
      ∧ (month = today.month → day = today.day → daysUntilFixed today month day = 0) := by
  have hlt := epochDay_lt_nextYear today hv
  have h0 : daysUntilFixed today month day
      = if jsDateDay today.year month day < today.epochDay
        then jsDateDay (today.year + 1) month day - today.epochDay
        else jsDateDay today.year month day - today.epochDay := rfl
  constructor
  · rw [h0]
    split_ifs with h
    · have hge : (daysBeforeYear (today.year + 1) : Int)
          ≤ jsDateDay (today.year + 1) month day := by
        unfold jsDateDay
        omega
      omega
    · omega
  · intro hm hd'
    subst hm
    subst hd'
    rw [h0]
    have he : jsDateDay today.year today.month today.day = today.epochDay := rfl
    rw [he]
    simp

theorem daysUntilFixed_spec_witness :
    0 ≤ daysUntilFixed ⟨5, 10, 12⟩ 10 12 ∧ daysUntilFixed ⟨5, 10, 12⟩ 10 12 = 0 :=
  ⟨(daysUntilFixed_spec ⟨5, 10, 12⟩ 10 12 (by decide) (by decide) (by decide) (by decide)).1,
   (daysUntilFixed_spec ⟨5, 10, 12⟩ 10 12 (by decide) (by decide) (by decide) (by decide)).2
     rfl rfl⟩

/-! ## C1: ownership visibility of `buildAlertsForSubscriber` -/

/-- The exclusion condition as the claim words it: the person has a
non-empty `ownerEmail` whose lower-cased value differs from the
lower-cased subscriber email. -/
def specExcluded (p : Person) (subscriberEmail : String) : Bool :=
  match p.ownerEmail with
  | none => false
  | some o => !(o == "") && !(jsToLower o == jsToLower subscriberEmail)

/-- Whether a person has a non-empty `ownerEmail` at all. -/
def specHasOwner (p : Person) : Bool :=
  match p.ownerEmail with
  | none => false
  | some o => !(o == "")

theorem personSkipped_some (p : Person) (e : String) :
    personSkipped p (some e) = Except.ok (specExcluded p e) := by
  unfold personSkipped specExcluded
  cases p.ownerEmail with
  | none => rfl
  | some o => cases ho : (o == "") <;> simp [ho]

theorem personLoop_some (today : Today) (e : String) (maxDays : Int) :
    ∀ ps : List Person,
      personLoop today (some e) maxDays ps
        = Except.ok (personsAlerts today maxDays
            (ps.filter (fun p => !specExcluded p e)))
  | [] => rfl
  | p :: rest => by
    simp only [personLoop, personSkipped_some, personLoop_some today e maxDays rest]
    cases hs : specExcluded p e <;> simp [hs, List.filter_cons, personsAlerts]

theorem personLoop_none (today : Today) (maxDays : Int) :
    ∀ ps : List Person,
      personLoop today none maxDays ps
        = (if ps.all (fun p => !specHasOwner p)
           then Except.ok (personsAlerts today maxDays ps)
           else Except.error ())
  | [] => rfl
  | p :: rest => by
    have hrec := personLoop_none today maxDays rest
    have hsk : personSkipped p none
        = (if specHasOwner p then Except.error () else Except.ok false) := by
      unfold personSkipped specHasOwner
      cases hp : p.ownerEmail with
      | none => rfl
      | some o => cases ho : (o == "") <;> simp [ho]
    simp only [personLoop, hsk, List.all_cons]
    by_cases hOwn : specHasOwner p = true
    · simp [hOwn]
    · simp only [Bool.not_eq_true] at hOwn
      rw [hrec]
      rcases Bool.eq_false_or_eq_true (rest.all (fun p => !specHasOwner p)) with
        hall | hall <;>
        simp [hOwn, hall, personsAlerts]

/-- C1 (amended): under an actual subscriber email, a person's dates are
excluded from `buildAlertsForSubscriber` exactly when the person has a
non-empty `ownerEmail` whose lower-cased value differs from the
lower-cased subscriber email (matching-owner and ownerless persons
contribute); under a null `subscriberEmail`, however, the function does
not broadcast: it returns the broadcast list only when no person has a
non-empty `ownerEmail`, and otherwise throws a TypeError. -/
theorem ownership_visibility (today : Today) (people : List Person) (e : String)
    (maxDays : Int) :
    buildAlertsForSubscriber today people (some e) maxDays
      = Except.ok (sortByDays (rawGlobalAlerts today maxDays
          ++ personsAlerts today maxDays (people.filter (fun p => !specExcluded p e))))
    ∧ buildAlertsForSubscriber today people none maxDays
      = (if people.all (fun p => !specHasOwner p)
         then Except.ok (buildAlerts today people maxDays)
         else Except.error ()) := by
  constructor
  · unfold buildAlertsForSubscriber rawAlertsForSubscriber
    rw [personLoop_some]
  · unfold buildAlertsForSubscriber rawAlertsForSubscriber
    rw [personLoop_none]
    cases hall : people.all (fun p => !specHasOwner p) <;>
      simp [hall, buildAlerts, rawAlerts]

/-- C1 counterexample to the claim as stated: with the ownership filter
inactive (`subscriberEmail` null) and one owned person in range, the
claim predicts the person's dates appear in the result, but the call
throws a TypeError instead of returning any list. -/
theorem ownership_null_throws :
    buildAlertsForSubscriber ⟨5, 12, 20⟩
      [⟨"Ann", some "12-25", none, none, some "a@x.com"⟩] none 7
      = Except.error () := by
  rfl

/-! ## C6: the broadcast variant refines the scoped one on legacy data -/

theorem personLoop_legacy (today : Today) (se : Option String) (maxDays : Int) :
    ∀ ps : List Person, (∀ p ∈ ps, p.ownerEmail = none ∨ p.ownerEmail = some "") →
      personLoop today se maxDays ps = Except.ok (personsAlerts today maxDays ps)
  | [], _ => rfl
  | p :: rest, h => by
    have hp := h p (List.mem_cons_self p rest)
    have hrec := personLoop_legacy today se maxDays rest
      (fun x hx => h x (List.mem_cons_of_mem p hx))
    have hs : personSkipped p se = Except.ok false := by
      rcases hp with hp | hp <;> simp [personSkipped, hp]
    simp [personLoop, hs, hrec, personsAlerts]

/-- C6: when no person has a non-empty `ownerEmail` (legacy data), the
ownership-scoped builder returns exactly the broadcast builder's list for
every subscriber email (null included) and every threshold. -/
theorem broadcast_refines_scoped (today : Today) (people : List Person)
    (se : Option String) (maxDays : Int)
    (h : ∀ p ∈ people, p.ownerEmail = none ∨ p.ownerEmail = some "") :
    buildAlertsForSubscriber today people se maxDays
      = Except.ok (buildAlerts today people maxDays) := by
  unfold buildAlertsForSubscriber rawAlertsForSubscriber
  rw [personLoop_legacy today se maxDays people h]
  simp [buildAlerts, rawAlerts]

theorem broadcast_refines_scoped_witness :
    (∀ p ∈ [(⟨"Mary", some "12-25", none, none, none⟩ : Person)],
        p.ownerEmail = none ∨ p.ownerEmail = some "")
      ∧ buildAlertsForSubscriber ⟨5, 12, 20⟩
          [⟨"Mary", some "12-25", none, none, none⟩] (some "b@y.com") 7
          = Except.ok (buildAlerts ⟨5, 12, 20⟩
              [⟨"Mary", some "12-25", none, none, none⟩] 7) :=
  ⟨by decide,
   broadcast_refines_scoped ⟨5, 12, 20⟩ [⟨"Mary", some "12-25", none, none, none⟩]
     (some "b@y.com") 7 (by decide)⟩

/-! ## C2: builder output sorted ascending by days, ties in insertion order -/

/-- C2: both builder variants return a list sorted non-decreasing by
`days`, and the sort is stable: filtering the output at any fixed `days`
value gives exactly the pre-sort (insertion-order) alert list filtered at
that value; for the pre-sort list the global alerts precede the per-person
alerts, so on a day tie a global holiday is listed before a personal
date. -/
theorem alerts_sorted_stable (today : Today) (people : List Person)
    (se : Option String) (maxDays : Int) (raw : List Alert)
    (h : rawAlertsForSubscriber today people se maxDays = Except.ok raw) :
    ((buildAlerts today people maxDays).Pairwise daysLE
      ∧ ∀ k : Int, (buildAlerts today people maxDays).filter (fun a => a.days == k)
          = (rawGlobalAlerts today maxDays).filter (fun a => a.days == k)
            ++ (personsAlerts today maxDays people).filter (fun a => a.days == k))
    ∧ (buildAlertsForSubscriber today people se maxDays = Except.ok (sortByDays raw)
      ∧ (sortByDays raw).Pairwise daysLE
      ∧ ∀ k : Int, (sortByDays raw).filter (fun a => a.days == k)
          = raw.filter (fun a => a.days == k)) := by
  refine ⟨⟨sorted_sortByDays _, fun k => ?_⟩,
    ?_, sorted_sortByDays _, fun k => filter_sortByDays k raw⟩
  · unfold buildAlerts rawAlerts
    rw [filter_sortByDays, List.filter_append]
  · unfold buildAlertsForSubscriber
    rw [h]

theorem alerts_sorted_stable_witness :
    rawAlertsForSubscriber ⟨5, 12, 20⟩
        [⟨"Ann", some "12-25", none, none, some "a@x.com"⟩] (some "a@x.com") 7
        = Except.ok [⟨"Christmas", 5⟩, ⟨"Ann's Birthday", 5⟩]
      ∧ buildAlertsForSubscriber ⟨5, 12, 20⟩
          [⟨"Ann", some "12-25", none, none, some "a@x.com"⟩] (some "a@x.com") 7
          = Except.ok (sortByDays [⟨"Christmas", 5⟩, ⟨"Ann's Birthday", 5⟩])
      ∧ (sortByDays [⟨"Christmas", 5⟩, ⟨"Ann's Birthday", 5⟩]).Pairwise daysLE
      ∧ (sortByDays [⟨"Christmas", 5⟩, ⟨"Ann's Birthday", 5⟩]).filter
            (fun a => a.days == 5)
          = ([⟨"Christmas", 5⟩, ⟨"Ann's Birthday", 5⟩] : List Alert).filter
              (fun a => a.days == 5) :=
  ⟨rfl,
   (alerts_sorted_stable ⟨5, 12, 20⟩ [⟨"Ann", some "12-25", none, none, some "a@x.com"⟩]
      (some "a@x.com") 7 [⟨"Christmas", 5⟩, ⟨"Ann's Birthday", 5⟩] rfl).2.1,
   (alerts_sorted_stable ⟨5, 12, 20⟩ [⟨"Ann", some "12-25", none, none, some "a@x.com"⟩]
      (some "a@x.com") 7 [⟨"Christmas", 5⟩, ⟨"Ann's Birthday", 5⟩] rfl).2.2.1,
   (alerts_sorted_stable ⟨5, 12, 20⟩ [⟨"Ann", some "12-25", none, none, some "a@x.com"⟩]
      (some "a@x.com") 7 [⟨"Christmas", 5⟩, ⟨"Ann's Birthday", 5⟩] rfl).2.2.2 5⟩

/-! ## Orchestrator lemmas -/

/-- The attempts the loop is expected to make for an (index, subscriber)
list: every subscriber whose scoped alert list is non-empty, in order,
paired with its own send outcome — independent of the other entries. -/
def expectedAttempts (env : Env) (l : List (Nat × Subscriber)) : List (String × Bool) :=
  (l.filter (fun is =>
    !((buildAlertsForSubscriberS env.today env.people is.2.email 7).length == 0))).map
    (fun is => (is.2.email, !env.sendFails is.1))

theorem expectedAttempts_cons (env : Env) (i : Nat) (sub : Subscriber)
    (l : List (Nat × Subscriber)) :
    expectedAttempts env ((i, sub) :: l)
      = if (buildAlertsForSubscriberS env.today env.people sub.email 7).length == 0
        then expectedAttempts env l
        else (sub.email, !env.sendFails i) :: expectedAttempts env l := by
  unfold expectedAttempts
  cases hA : ((buildAlertsForSubscriberS env.today env.people sub.email 7).length == 0) <;>
    simp [List.filter_cons, hA]

theorem sendLoop_spec (env : Env) :
    ∀ (subs : List Subscriber) (i : Nat),
      (sendLoop env i subs).1.filterMap attemptOf
          = expectedAttempts env (subs.enumFrom i)
        ∧ (sendLoop env i subs).2.1
          = (expectedAttempts env (subs.enumFrom i)).countP (fun p => p.2)
        ∧ (sendLoop env i subs).2.2.2
          = (expectedAttempts env (subs.enumFrom i)).countP (fun p => !p.2)
        ∧ (sendLoop env i subs).2.2.2 = (sendLoop env i subs).1.countP isFailedAttempt
        ∧ (sendLoop env i subs).2.1 + (sendLoop env i subs).2.2.1
            + (sendLoop env i subs).2.2.2 = subs.length
  | [], i => by simp [sendLoop, expectedAttempts, List.enumFrom]
  | sub :: rest, i => by
    obtain ⟨ha, hok, hfl, hflc, hsum⟩ := sendLoop_spec env rest (i + 1)
    rw [show List.enumFrom i (sub :: rest) = (i, sub) :: List.enumFrom (i + 1) rest
        from rfl,
      expectedAttempts_cons]
    simp only [sendLoop]
    split_ifs with hA hF
    · simp [List.filterMap_cons, attemptOf, List.countP_cons, isFailedAttempt]
      exact ⟨ha, hok, hfl, hflc, by omega⟩
    · simp [List.filterMap_cons, attemptOf, List.countP_cons, isFailedAttempt, hF, ha,
        hok, hfl, hflc]
      omega
    · simp only [Bool.not_eq_true] at hF
      simp [List.filterMap_cons, attemptOf, List.countP_cons, isFailedAttempt, hF, ha,
        hok, hfl, hflc]
      omega

theorem sendLoop_all_empty (env : Env) :
    ∀ (subs : List Subscriber) (i : Nat),
      (∀ s ∈ subs, buildAlertsForSubscriberS env.today env.people s.email 7 = []) →
        (sendLoop env i subs).1.countP isAttempt = 0
          ∧ (sendLoop env i subs).2.2.2 = 0
  | [], _, _ => ⟨rfl, rfl⟩
  | sub :: rest, i, h => by
    have hs := h sub (List.mem_cons_self sub rest)
    have hrec := sendLoop_all_empty env rest (i + 1)
      (fun x hx => h x (List.mem_cons_of_mem sub hx))
    simp [sendLoop, hs, List.countP_cons, isAttempt, hrec.1, hrec.2]

theorem mainRun_loop (env : Env) (cfg : EmailConfig)
    (h1 : env.cfgDoc = some cfg) (h2 : cfgComplete cfg = true)
    (h3 : (env.subscribers.length == 0) = false) :
    mainRun env
      = ⟨(sendLoop env 0 env.subscribers).1, (sendLoop env 0 env.subscribers).2.1,
         (sendLoop env 0 env.subscribers).2.2.1, (sendLoop env 0 env.subscribers).2.2.2,
         if (sendLoop env 0 env.subscribers).2.2.2 > 0 then 1 else 0⟩ := by
  unfold mainRun
  rw [h1]
  simp [h2, h3]

theorem mainRun_early (env : Env)
    (h : env.cfgDoc = none
      ∨ (∃ cfg, env.cfgDoc = some cfg ∧ cfgComplete cfg = false)
      ∨ env.subscribers = []) :
    mainRun env = ⟨[], 0, 0, 0, 0⟩ := by
  rcases h with h | ⟨cfg, hc, hcc⟩ | h
  · simp [mainRun, h]
  · simp [mainRun, hc, hcc]
  · unfold mainRun
    rcases env.cfgDoc with _ | cfg
    · rfl
    · split_ifs <;> simp [h] at *

/-! ## C7: pacing between send attempts -/

/-- A paced trace: a 1100 ms sleep stands immediately after every
successful send attempt and nowhere else — no sleep after a failed
attempt, after a skipped subscriber, or at the start. -/
inductive PacedTrace : List Event → Prop
  | nil : PacedTrace []
  | skipped (n : String) {t : List Event} :
      PacedTrace t → PacedTrace (Event.skip n :: t)
  | failed (e : String) {t : List Event} :
      PacedTrace t → PacedTrace (Event.sendAttempt e false :: t)
  | sent (e : String) {t : List Event} :
      PacedTrace t → PacedTrace (Event.sendAttempt e true :: Event.sleep 1100 :: t)

theorem sendLoop_paced (env : Env) :
    ∀ (subs : List Subscriber) (i : Nat), PacedTrace (sendLoop env i subs).1
  | [], _ => PacedTrace.nil
  | sub :: rest, i => by
    have hrec := sendLoop_paced env rest (i + 1)
    simp only [sendLoop]
    split_ifs with hA hF
    · exact PacedTrace.skipped _ hrec
    · exact PacedTrace.failed _ hrec
    · exact PacedTrace.sent _ hrec

/-- C7 (amended): in every run, the 1.1 s pacing sleep is inserted after
every successful send attempt and only there: a failed attempt and a
skipped subscriber are followed by no sleep, so two successive send
attempts have an intervening delay exactly when the earlier one
succeeded. -/
theorem pacing_after_successful_sends (env : Env) : PacedTrace (mainRun env).events := by
  unfold mainRun
  rcases env.cfgDoc with _ | cfg
  · exact PacedTrace.nil
  · dsimp only
    split_ifs with h1 h2 h3
    · exact PacedTrace.nil
    · exact PacedTrace.nil
    · exact sendLoop_paced env env.subscribers 0
    · exact sendLoop_paced env env.subscribers 0

/-- C7 counterexample to the claim as stated: a run with two subscribers
whose first send attempt fails puts the two attempts next to each other
with no sleep between them (the delay follows only the successful second
attempt), refuting "a delay is inserted between any two successive send
attempts" and "after every attempted send". -/
theorem pacing_counterexample :
    (mainRun ⟨⟨5, 12, 20⟩, some ⟨some "svc", some "tpl", some "pk", none⟩, [],
        [⟨"A", "a@x.com"⟩, ⟨"B", "b@x.com"⟩], fun i => i == 0⟩).events
      = [Event.sendAttempt "a@x.com" false, Event.sendAttempt "b@x.com" true,
         Event.sleep 1100] := by
  rfl

/-! ## C8: per-recipient failure isolation -/

/-- C8: whenever the run reaches the subscriber loop, the attempted sends
are exactly one per subscriber with a non-empty scoped alert list, in
retrieval order, each with its own outcome — a failure for one subscriber
is caught and counted and never aborts the loop, and every later
subscriber whose send does not fail is still sent; `sent`/`failed` count
the successful/failing attempts. -/
theorem failure_isolation (env : Env) (cfg : EmailConfig)
    (h1 : env.cfgDoc = some cfg) (h2 : cfgComplete cfg = true) :
    (mainRun env).events.filterMap attemptOf = expectedAttempts env env.subscribers.enum
      ∧ (mainRun env).sent
        = (expectedAttempts env env.subscribers.enum).countP (fun p => p.2)
      ∧ (mainRun env).failed
        = (expectedAttempts env env.subscribers.enum).countP (fun p => !p.2) := by
  have hspec := sendLoop_spec env env.subscribers 0
  have henum : env.subscribers.enum = List.enumFrom 0 env.subscribers := rfl
  cases hlen : env.subscribers.length == 0 with
  | true =>
    have hlen' : env.subscribers.length = 0 := by simpa using hlen
    have hsubs : env.subscribers = [] := List.length_eq_zero.mp hlen'
    rw [mainRun_early env (Or.inr (Or.inr hsubs))]
    simp [hsubs, expectedAttempts, List.enum]
  | false =>
    rw [mainRun_loop env cfg h1 h2 hlen, henum]
    exact ⟨hspec.1, hspec.2.1, hspec.2.2.1⟩

theorem failure_isolation_witness :
    (mainRun ⟨⟨5, 12, 20⟩, some ⟨some "svc", some "tpl", some "pk", none⟩, [],
        [⟨"A", "a@x.com"⟩, ⟨"B", "b@x.com"⟩, ⟨"C", "c@x.com"⟩], fun i => i == 1⟩).events.filterMap
        attemptOf
      = expectedAttempts
          ⟨⟨5, 12, 20⟩, some ⟨some "svc", some "tpl", some "pk", none⟩, [],
            [⟨"A", "a@x.com"⟩, ⟨"B", "b@x.com"⟩, ⟨"C", "c@x.com"⟩], fun i => i == 1⟩
          ([⟨"A", "a@x.com"⟩, ⟨"B", "b@x.com"⟩, ⟨"C", "c@x.com"⟩] : List Subscriber).enum
      ∧ (mainRun ⟨⟨5, 12, 20⟩, some ⟨some "svc", some "tpl", some "pk", none⟩, [],
          [⟨"A", "a@x.com"⟩, ⟨"B", "b@x.com"⟩, ⟨"C", "c@x.com"⟩], fun i => i == 1⟩).sent
        = (expectedAttempts
            ⟨⟨5, 12, 20⟩, some ⟨some "svc", some "tpl", some "pk", none⟩, [],
              [⟨"A", "a@x.com"⟩, ⟨"B", "b@x.com"⟩, ⟨"C", "c@x.com"⟩], fun i => i == 1⟩
            ([⟨"A", "a@x.com"⟩, ⟨"B", "b@x.com"⟩, ⟨"C", "c@x.com"⟩] : List Subscriber).enum).countP
            (fun p => p.2)
      ∧ (mainRun ⟨⟨5, 12, 20⟩, some ⟨some "svc", some "tpl", some "pk", none⟩, [],
          [⟨"A", "a@x.com"⟩, ⟨"B", "b@x.com"⟩, ⟨"C", "c@x.com"⟩], fun i => i == 1⟩).failed
        = (expectedAttempts
            ⟨⟨5, 12, 20⟩, some ⟨some "svc", some "tpl", some "pk", none⟩, [],
              [⟨"A", "a@x.com"⟩, ⟨"B", "b@x.com"⟩, ⟨"C", "c@x.com"⟩], fun i => i == 1⟩
            ([⟨"A", "a@x.com"⟩, ⟨"B", "b@x.com"⟩, ⟨"C", "c@x.com"⟩] : List Subscriber).enum).countP
            (fun p => !p.2) :=
  failure_isolation
    ⟨⟨5, 12, 20⟩, some ⟨some "svc", some "tpl", some "pk", none⟩, [],
      [⟨"A", "a@x.com"⟩, ⟨"B", "b@x.com"⟩, ⟨"C", "c@x.com"⟩], fun i => i == 1⟩
    ⟨some "svc", some "tpl", some "pk", none⟩ rfl rfl

/-! ## C9: exit status -/

/-- C9: the process exits 1 exactly when some attempted send failed, and
exits 0 otherwise; every early-exit path — config document absent,
config incomplete, no subscribers, or no qualifying alerts for any
subscriber — exits 0 without any provider send attempt.  (Store-read
faults are outside the embedding: the collections are modelled as already
fetched, per the spec treating the store as an external collaborator.) -/
theorem exit_status (env : Env) :
    ((mainRun env).exitCode = 1
        ↔ ∃ e ∈ (mainRun env).events, isFailedAttempt e = true)
      ∧ ((env.cfgDoc = none
            ∨ (∃ cfg, env.cfgDoc = some cfg ∧ cfgComplete cfg = false)
            ∨ env.subscribers = []
            ∨ ∀ s ∈ env.subscribers,
                buildAlertsForSubscriberS env.today env.people s.email 7 = [])
          → (mainRun env).exitCode = 0
            ∧ ∀ e ∈ (mainRun env).events, isAttempt e = false) := by
  constructor
  · cases hcfg : env.cfgDoc with
    | none =>
      rw [mainRun_early env (Or.inl hcfg)]
      simp
    | some cfg =>
      cases hcomp : cfgComplete cfg with
      | false =>
        rw [mainRun_early env (Or.inr (Or.inl ⟨cfg, hcfg, hcomp⟩))]
        simp
      | true =>
        cases hlen : env.subscribers.length == 0 with
        | true =>
          have hlen' : env.subscribers.length = 0 := by simpa using hlen
          rw [mainRun_early env (Or.inr (Or.inr (List.length_eq_zero.mp hlen')))]
          simp
        | false =>
          rw [mainRun_loop env cfg hcfg hcomp hlen]
          have hflc := (sendLoop_spec env env.subscribers 0).2.2.2.1
          dsimp only
          rw [show (∃ e ∈ (sendLoop env 0 env.subscribers).1, isFailedAttempt e = true)
                ↔ 0 < (sendLoop env 0 env.subscribers).1.countP isFailedAttempt
              from List.countP_pos_iff.symm,
            ← hflc]
          split_ifs with hpos
          · simp [hpos]
          · simp only [Nat.not_lt, Nat.le_zero] at hpos
            simp [hpos]
  · intro hdisj
    rcases hdisj with h | h | h | h
    · rw [mainRun_early env (Or.inl h)]
      simp
    · rw [mainRun_early env (Or.inr (Or.inl h))]
      simp
    · rw [mainRun_early env (Or.inr (Or.inr h))]
      simp
    · cases hcfg : env.cfgDoc with
      | none =>
        rw [mainRun_early env (Or.inl hcfg)]
        simp
      | some cfg =>
        cases hcomp : cfgComplete cfg with
        | false =>
          rw [mainRun_early env (Or.inr (Or.inl ⟨cfg, hcfg, hcomp⟩))]
          simp
        | true =>
          cases hlen : env.subscribers.length == 0 with
          | true =>
            have hlen' : env.subscribers.length = 0 := by simpa using hlen
            rw [mainRun_early env (Or.inr (Or.inr (List.length_eq_zero.mp hlen')))]
            simp
          | false =>
            rw [mainRun_loop env cfg hcfg hcomp hlen]
            obtain ⟨hAtt, hFl⟩ := sendLoop_all_empty env env.subscribers 0 h
            dsimp only
            constructor
            · simp [hFl]
            · intro e he
              have h0 := List.countP_eq_zero.mp hAtt e he
              simpa using h0

theorem exit_status_witness :
    (mainRun ⟨⟨5, 12, 20⟩, none, [], [⟨"A", "a@x.com"⟩], fun _ => false⟩).exitCode = 0 :=
  ((exit_status ⟨⟨5, 12, 20⟩, none, [], [⟨"A", "a@x.com"⟩], fun _ => false⟩).2
    (Or.inl rfl)).1

/-! ## C10: the three counters partition the subscribers -/

/-- C10: in every run that reaches the subscriber loop (config present and
complete), each subscriber is counted exactly once, so
`sent + skipped + failed` equals the number of subscriber records. -/
theorem counters_partition (env : Env) (cfg : EmailConfig)
    (h1 : env.cfgDoc = some cfg) (h2 : cfgComplete cfg = true) :
    (mainRun env).sent + (mainRun env).skipped + (mainRun env).failed
      = env.subscribers.length := by
  cases hlen : env.subscribers.length == 0 with
  | true =>
    have hlen' : env.subscribers.length = 0 := by simpa using hlen
    rw [mainRun_early env (Or.inr (Or.inr (List.length_eq_zero.mp hlen')))]
    simp [hlen']
  | false =>
    rw [mainRun_loop env cfg h1 h2 hlen]
    exact (sendLoop_spec env env.subscribers 0).2.2.2.2

theorem counters_partition_witness :
    (mainRun ⟨⟨5, 12, 20⟩, some ⟨some "svc", some "tpl", some "pk", none⟩, [],
        [⟨"A", "a@x.com"⟩, ⟨"B", "b@x.com"⟩, ⟨"C", "c@x.com"⟩], fun i => i == 1⟩).sent
        + (mainRun ⟨⟨5, 12, 20⟩, some ⟨some "svc", some "tpl", some "pk", none⟩, [],
            [⟨"A", "a@x.com"⟩, ⟨"B", "b@x.com"⟩, ⟨"C", "c@x.com"⟩], fun i => i == 1⟩).skipped
        + (mainRun ⟨⟨5, 12, 20⟩, some ⟨some "svc", some "tpl", some "pk", none⟩, [],
            [⟨"A", "a@x.com"⟩, ⟨"B", "b@x.com"⟩, ⟨"C", "c@x.com"⟩], fun i => i == 1⟩).failed
      = ([⟨"A", "a@x.com"⟩, ⟨"B", "b@x.com"⟩, ⟨"C", "c@x.com"⟩] : List Subscriber).length :=
  counters_partition
    ⟨⟨5, 12, 20⟩, some ⟨some "svc", some "tpl", some "pk", none⟩, [],
      [⟨"A", "a@x.com"⟩, ⟨"B", "b@x.com"⟩, ⟨"C", "c@x.com"⟩], fun i => i == 1⟩
    ⟨some "svc", some "tpl", some "pk", none⟩ rfl rfl
